import Mathlib

/-!
Shallow embedding of the streamduck-node-client transport/correlation engine.

Sources embedded here:
- src/index.js, `buildRequestProtocol` (lines 1012-1063) and `newUnixClient`
  (lines 1070-1148): the delimiter-framed Unix-socket client — request
  registration, the correlation pool, the `on('data')` receive handler with
  its 0x04 sentinel framing, the timeout timer, `destroy`, and the
  reconnection `setInterval` supervisor.
- src/unnamed/part_000, `buildRequestProtocol` (lines 34-91): the
  message-framed WebSocket client with its queue-and-retry send policy.
- src/unnamed/part_001, `newUnixClient` (lines 665-769): the older
  Unix-socket variant, for its `protocol.destroy`.

JavaScript strings are embedded as lists of characters; JSON.parse is a
parameter `parse : Str → Option Doc` (it is a platform primitive, not code
of this repository), with a concrete finite table standing in for it in
concrete evaluations. JS promises are embedded with their settle-once
semantics: a settled promise ignores later resolve/reject calls. The
single-threaded event-loop execution is embedded as a trace of atomic
events (a request call, a socket data callback, a timer firing), folded
over a step function translated from the handlers.
-/

/-- A JavaScript string, embedded as its list of characters. -/
abbrev Str := List Char

/-- The frame delimiter byte 0x04 used by the delimiter-framed protocol
    (written as the string terminator in client.write and searched for by
    the on-data handler). -/
def sentinel : Char := Char.ofNat 4

/-- JS String.prototype.split with a single-character separator: returns
    the (possibly empty) segments between occurrences of the separator.
    Empty input gives one empty segment, a trailing separator gives a
    trailing empty segment, exactly as in JavaScript. -/
def splitOnSentinel (l : Str) : List Str :=
  l.foldr
    (fun c acc =>
      if c = sentinel then [] :: acc
      else
        match acc with
        | s :: rest => (c :: s) :: rest
        | [] => [[c]])
    [[]]

/-- Outcome of a settled JS promise: resolved with a payload or rejected
    with a reason string. Payloads are opaque to the engine and embedded
    as natural numbers. -/
inductive Outcome where
  | resolved (payload : Nat)
  | rejected (reason : Str)
  deriving DecidableEq, Repr

/-- JS promise settle-once semantics: resolve/reject on an already
    settled promise is a no-op. -/
def settle (f : Option Outcome) (o : Outcome) : Option Outcome :=
  match f with
  | some v => some v
  | none => some o

/-- State of a setTimeout timer: armed (callback will run), cleared
    (clearTimeout was called before it ran), or fired (callback ran). -/
inductive TimerState where
  | armed
  | cleared
  | fired
  deriving DecidableEq, Repr

/-- The reject reason of the request timeout path (index.js line 1033,
    part_000 line 64). -/
def requestTimedOut : Str := "Request timed out".data

/-- One decoded inbound document, restricted to the fields the receive
    handlers inspect: `ty` (event discriminator), `requester` (correlation
    id; `none` embeds a JS `undefined` field), and `data` (the payload,
    opaque). -/
structure Doc where
  ty : Option Str
  requester : Option Str
  data : Nat
  deriving DecidableEq, Repr

/-- JS property lookup `pool[obj.requester]` coerces an `undefined`
    requester field to the property key "undefined". -/
def keyOf (r : Option Str) : Str :=
  match r with
  | some s => s
  | none => "undefined".data

/-- Association-list lookup, the embedding of reading a JS object
    property. -/
def alistLookup (k : Str) : List (Str × Nat) → Option Nat
  | [] => none
  | (k', v) :: rest => if k' = k then some v else alistLookup k rest

/-- Remove the binding of a key, the embedding of `delete pool[k]`
    (keys are unique in a JS object, so removing the first binding
    suffices). -/
def alistErase (k : Str) : List (Str × Nat) → List (Str × Nat)
  | [] => []
  | (k', v) :: rest => if k' = k then rest else (k', v) :: alistErase k rest

/-- JS object property assignment `pool[k] = v`: overwrites any previous
    binding of `k` silently. -/
def alistInsert (k : Str) (v : Nat) (l : List (Str × Nat)) : List (Str × Nat) :=
  (k, v) :: alistErase k l

/-- Positional read of the j-th element of a list, `none` out of range. -/
def nth {α : Type} : List α → Nat → Option α
  | [], _ => none
  | a :: _, 0 => some a
  | _ :: l, n + 1 => nth l n

/-- Positional update of the j-th element of a list, identity out of
    range. -/
def setNth {α : Type} : List α → Nat → α → List α
  | [], _, _ => []
  | _ :: l, 0, b => b :: l
  | a :: l, n + 1, b => a :: setNth l n b

/-- The mutable state of one Unix-socket client, as closed over by the
    handlers in newUnixClient (index.js lines 1070-1148):
    `collected` is protocol_options.collected_string; `pool` maps a
    requester id to the request it resolves (requests are numbered in
    creation order, standing for the closures the code stores);
    `futures j` / `timers j` are the promise and the setTimeout timer of
    request j; `listeners` is protocol.event_listeners (listener
    identities in registration order); `eventLog` records each listener
    invocation (listener, payload) in order. -/
structure ClientState where
  collected : Str
  pool : List (Str × Nat)
  futures : List (Option Outcome)
  timers : List TimerState
  listeners : List Nat
  eventLog : List (Nat × Nat)
  deriving DecidableEq, Repr

/-- Read request j's promise state ( `none` = still pending). -/
def futureAt (fs : List (Option Outcome)) (j : Nat) : Option Outcome :=
  (nth fs j).getD none

/-- Read request j's timer state. -/
def timerAt (ts : List TimerState) (j : Nat) : TimerState :=
  (nth ts j).getD TimerState.cleared

/-- Settle request j's promise (no-op if already settled). -/
def settleAt (fs : List (Option Outcome)) (j : Nat) (o : Outcome) :
    List (Option Outcome) :=
  setNth fs j (settle (futureAt fs j) o)

/-- The pool callback stored by protocol.request (index.js lines
    1036-1039): `clearTimeout(timer); resolve(data)`. -/
def runCallback (s : ClientState) (j : Nat) (payload : Nat) : ClientState :=
  { s with
    timers := setNth s.timers j TimerState.cleared,
    futures := settleAt s.futures j (Outcome.resolved payload) }

/-- Dispatch of one successfully decoded document, translated from the
    body of the on-data handler (index.js lines 1104-1116): an `obj`
    with `ty === "event"` is fanned out to every registered listener in
    order; any other document is looked up in the pool by its
    `requester` field, the stored callback (if any) clears the timer and
    resolves the promise, and the pool entry is deleted. -/
def dispatchDoc (s : ClientState) (d : Doc) : ClientState :=
  if d.ty = some "event".data then
    { s with eventLog := s.eventLog ++ s.listeners.map (fun l => (l, d.data)) }
  else
    let key := keyOf d.requester
    let s' :=
      match alistLookup key s.pool with
      | some j => runCallback s j d.data
      | none => s
    { s' with pool := alistErase key s'.pool }

/-- Processing of one split segment (index.js lines 1099-1121): empty
    segments are skipped (`if (json)`), JSON.parse failure is swallowed
    by the try/catch and the loop moves to the next segment. -/
def dispatchSegment (parse : Str → Option Doc) (s : ClientState)
    (seg : Str) : ClientState :=
  if seg = [] then s
  else
    match parse seg with
    | some d => dispatchDoc s d
    | none => s

/-- The forEach over all split segments. -/
def processSegments (parse : Str → Option Doc) (s : ClientState)
    (segs : List Str) : ClientState :=
  segs.foldl (dispatchSegment parse) s

/-- The on-data socket handler (index.js lines 1094-1124): append the
    chunk to collected_string; if the buffer now contains the sentinel,
    split on it, process every segment, and reset collected_string to
    the empty string; otherwise just keep accumulating. -/
def dataStep (parse : Str → Option Doc) (s : ClientState) (chunk : Str) :
    ClientState :=
  let buf := s.collected ++ chunk
  if buf.contains sentinel then
    let s' := processSegments parse { s with collected := buf }
      (splitOnSentinel buf)
    { s' with collected := [] }
  else
    { s with collected := buf }

/-- protocol.request (index.js lines 1024-1044) with the generated
    random id `rid` supplied by the trace (randomstring.generate is a
    platform primitive). When the client handle is present: the request
    is written, a fresh promise and an armed timeout timer are created
    (request index = creation order), and the pool binding `rid ↦ j` is
    installed, silently overwriting any previous binding of `rid`. When
    the handle is null: the call returns an already-rejected promise and
    registers nothing. -/
def requestStep (s : ClientState) (rid : Str) (connected : Bool) :
    ClientState :=
  if connected then
    { s with
      pool := alistInsert rid s.futures.length s.pool,
      futures := s.futures ++ [none],
      timers := s.timers ++ [TimerState.armed] }
  else
    { s with
      futures := s.futures ++ [some (Outcome.rejected "Client not connected".data)],
      timers := s.timers ++ [TimerState.cleared] }

/-- The setTimeout callback of request j (index.js lines 1032-1034): it
    runs only if the timer is still armed, and then only rejects the
    promise with "Request timed out" — the pool entry is not deleted
    there. -/
def timerFireStep (s : ClientState) (j : Nat) : ClientState :=
  if timerAt s.timers j = TimerState.armed then
    { s with
      timers := setNth s.timers j TimerState.fired,
      futures := settleAt s.futures j (Outcome.rejected requestTimedOut) }
  else s

/-- One atomic event of the single-threaded event loop driving the
    client: a protocol.request call (with its generated id and the
    client-handle status at that moment), a socket data callback, or a
    request timeout firing. -/
inductive Ev where
  | request (rid : Str) (connected : Bool)
  | data (chunk : Str)
  | timerFire (j : Nat)
  deriving DecidableEq, Repr

/-- One step of the event loop. -/
def step (parse : Str → Option Doc) (s : ClientState) : Ev → ClientState
  | Ev.request rid connected => requestStep s rid connected
  | Ev.data chunk => dataStep parse s chunk
  | Ev.timerFire j => timerFireStep s j

/-- Execution of a trace of event-loop events. -/
def run (parse : Str → Option Doc) (s : ClientState) (evs : List Ev) :
    ClientState :=
  evs.foldl (step parse) s

/-- The documents decoded out of one list of split segments: the
    successful parses of the non-empty segments, in order (the same
    selection the forEach of the on-data handler dispatches). -/
def docsOfSegments (parse : Str → Option Doc) (segs : List Str) : List Doc :=
  segs.foldr
    (fun seg acc =>
      if seg = [] then acc
      else
        match parse seg with
        | some d => d :: acc
        | none => acc)
    []

/-- The document-extraction face of the on-data handler (index.js lines
    1094-1124): given the retained buffer and one inbound chunk, the
    documents it decodes and the buffer it leaves for the next call.
    When the accumulated buffer contains the sentinel the handler splits
    and processes it and then assigns the empty string to
    collected_string; otherwise it only accumulates. -/
def feed (parse : Str → Option Doc) (collected chunk : Str) :
    List Doc × Str :=
  let buf := collected ++ chunk
  if buf.contains sentinel then
    (docsOfSegments parse (splitOnSentinel buf), [])
  else
    ([], buf)

/-- Feeding a whole sequence of inbound chunks from an empty buffer,
    concatenating the documents each feed decodes. -/
def feedAll (parse : Str → Option Doc) (chunks : List Str) :
    List Doc × Str :=
  chunks.foldl
    (fun acc chunk =>
      let r := feed parse acc.2 chunk
      (acc.1 ++ r.1, r.2))
    ([], [])

/-- Finite stand-in for JSON.parse: the given documents parse to their
    decoded forms, any other segment (in particular any strict partial
    of one of them, which is not valid JSON text) fails to parse. -/
def tableParse (tab : List (Str × Doc)) (s : Str) : Option Doc :=
  match tab.find? (fun p => p.1 = s) with
  | some p => some p.2
  | none => none

/-- The protocol options object built by newUnixClient (index.js lines
    1074-1078): it carries collected_string, client and timeout, and in
    particular it never defines a destroy property. The client handle is
    null until a connection is established. -/
structure ProtocolOptions where
  collected_string : Str
  client : Option Unit
  timeout : Nat
  destroy : Option Unit
  deriving DecidableEq, Repr

/-- The options object as constructed (index.js lines 1074-1078):
    destroy is absent. -/
def unix_protocol_options : ProtocolOptions :=
  { collected_string := [], client := none, timeout := 5000, destroy := none }

/-- A thrown JS error. -/
inductive JsError where
  | typeError
  deriving DecidableEq, Repr

/-- protocol.destroy of buildRequestProtocol (index.js lines 1058-1060):
    it calls opts.destroy(); when the options object has no destroy
    property this is a call of undefined and throws a TypeError before
    touching any state. -/
def protocolDestroy (opts : ProtocolOptions) : Except JsError Unit :=
  match opts.destroy with
  | some _ => Except.ok ()
  | none => Except.error JsError.typeError

/-- protocol.destroy of the older Unix client (src/unnamed/part_001
    lines 757-759): it calls client.destroy() directly on the closed-over
    handle; the handle is null whenever the connection is down (set to
    null by the error/close handlers and before the first connect), and
    a member call on null throws a TypeError. -/
def oldProtocolDestroy (client : Option Unit) : Except JsError Unit :=
  match client with
  | some _ => Except.ok ()
  | none => Except.error JsError.typeError

/-- One tick of the reconnection supervisor (index.js lines 1141-1145):
    whether rec() is invoked, given whether the client handle is null
    and the reconnect option. The setInterval installing this tick is
    never cleared anywhere in the source. -/
def supervisorTick (clientNull reconnect : Bool) : Bool :=
  clientNull && reconnect

/-- Per-request state of the message-framed WebSocket protocol.request
    (src/unnamed/part_000 lines 40-72): whether the pre-connect resend
    interval is active, whether the timeout timer is still armed, how
    many times this request's message has been sent, and the promise
    state. -/
structure WsReq where
  intervalActive : Bool
  timerArmed : Bool
  sent : Nat
  outcome : Option Outcome
  deriving DecidableEq, Repr

/-- protocol.request at issue time (part_000 lines 48-66): if connected,
    the message is sent immediately and no interval is armed; otherwise
    an interval on retry_interval is armed. In both cases the timeout
    timer is armed and the promise is pending. -/
def wsRequestInit (connected : Bool) : WsReq :=
  if connected then
    { intervalActive := false, timerArmed := true, sent := 1, outcome := none }
  else
    { intervalActive := true, timerArmed := true, sent := 0, outcome := none }

/-- One event-loop event for a pending WebSocket request: an interval
    tick (with the connection status at that moment), the timeout timer
    elapsing, or the response callback running from the pool. -/
inductive WsEv where
  | tick (connected : Bool)
  | timerFire
  | response (payload : Nat)
  deriving DecidableEq, Repr

/-- One step (part_000): the interval callback (lines 54-59) sends and
    clears the interval when it finds the connection up, else does
    nothing; the timeout callback (lines 62-65) clears the interval and
    rejects, and runs only while the timer is armed; the pool callback
    (lines 67-70) clears the timer and resolves. -/
def wsStep (s : WsReq) : WsEv → WsReq
  | WsEv.tick connected =>
      if s.intervalActive && connected then
        { s with sent := s.sent + 1, intervalActive := false }
      else s
  | WsEv.timerFire =>
      if s.timerArmed then
        { s with
          timerArmed := false,
          intervalActive := false,
          outcome := settle s.outcome (Outcome.rejected requestTimedOut) }
      else s
  | WsEv.response payload =>
      { s with
        timerArmed := false,
        outcome := settle s.outcome (Outcome.resolved payload) }

/-- Execution of a trace of events against one pending request. -/
def wsRun (s : WsReq) (evs : List WsEv) : WsReq :=
  evs.foldl wsStep s

/-- Request jold is displaced in state s: no pool entry points at it, it
    exists, and its promise is pending or already timeout-rejected. -/
def displaced (jold : Nat) (s : ClientState) : Prop :=
  (∀ p ∈ s.pool, p.2 ≠ jold) ∧ jold < s.futures.length ∧
    (futureAt s.futures jold = none ∨
      futureAt s.futures jold = some (Outcome.rejected requestTimedOut))

/-- Invariant of a pending WebSocket request: while the resend interval
    is active nothing has been sent yet, and the message is never sent
    more than once. -/
def wsInv (s : WsReq) : Prop :=
  (s.intervalActive = true → s.sent = 0) ∧ s.sent ≤ 1

/-! Concrete example data, used to evaluate the handlers on the inputs of
    the specification scenarios. The parse tables list exactly the
    documents of each scenario; a strict partial of a JSON document is not
    valid JSON text and therefore fails to parse, which the finite table
    reproduces by not containing it. -/

/-- The wire text of the response document for requester "a". -/
def frameA : Str := "\x7b\"requester\":\"a\",\"data\":1\x7d".data

/-- The wire text of the response document for requester "b". -/
def frameB : Str := "\x7b\"requester\":\"b\",\"data\":2\x7d".data

/-- The decoded form of frameA. -/
def docA : Doc := { ty := none, requester := some "a".data, data := 1 }

/-- The decoded form of frameB. -/
def docB : Doc := { ty := none, requester := some "b".data, data := 2 }

/-- JSON.parse restricted to the two example documents. -/
def exampleTab : List (Str × Doc) := [(frameA, docA), (frameB, docB)]

/-- First inbound chunk: all of frame A, its terminator, and the first
    13 characters of frame B (the chunk boundary falls mid-document). -/
def chunk1 : Str := frameA ++ [sentinel] ++ frameB.take 13

/-- Second inbound chunk: the rest of frame B and its terminator. -/
def chunk2 : Str := frameB.drop 13 ++ [sentinel]

/-- A malformed segment: a strict partial of a document, unparsable. -/
def badSeg : Str := "\x7b\"requester\":".data

/-- The wire text of a response for requester "abc" with payload 7. -/
def respAbcFrame : Str := "\x7b\"requester\":\"abc\",\"data\":7\x7d".data

/-- The decoded form of respAbcFrame. -/
def respAbc : Doc := { ty := none, requester := some "abc".data, data := 7 }

/-- The event-tagged document of the specification scenario. -/
def eventDoc : Doc := { ty := some "event".data, requester := none, data := 1 }

/-- The wire text of a response for a requester id "zzz" that no pending
    request uses. -/
def staleFrame : Str := "\x7b\"requester\":\"zzz\",\"data\":9\x7d".data

/-- The decoded form of staleFrame. -/
def staleDoc : Doc := { ty := none, requester := some "zzz".data, data := 9 }

/-- A client with one pending request: id "abc", request 0, timer armed,
    two registered event listeners. -/
def pendingState : ClientState :=
  { collected := [], pool := [("abc".data, 0)], futures := [none],
    timers := [TimerState.armed], listeners := [0, 1], eventLog := [] }

/-- A client whose only request already resolved with payload 7. -/
def resolvedState : ClientState :=
  { collected := [], pool := [], futures := [some (Outcome.resolved 7)],
    timers := [TimerState.cleared], listeners := [], eventLog := [] }

/-- A client with two pending requests: id "a" is request 0 and id "b"
    is request 1, both timers armed. -/
def twoPending : ClientState :=
  { collected := [], pool := [("a".data, 0), ("b".data, 1)],
    futures := [none, none], timers := [TimerState.armed, TimerState.armed],
    listeners := [], eventLog := [] }

/-! Helper lemmas about the positional and associative list operations. -/

theorem nth_lt_length {α : Type} {l : List α} {j : Nat} {a : α}
    (h : nth l j = some a) : j < l.length := by
  induction l generalizing j with
  | nil => simp [nth] at h
  | cons x xs ih =>
    cases j with
    | zero => simp [List.length]
    | succ n =>
      simp only [nth] at h
      exact Nat.succ_lt_succ (ih h)

theorem nth_setNth_eq {α : Type} {l : List α} {j : Nat} (b : α)
    (h : j < l.length) : nth (setNth l j b) j = some b := by
  induction l generalizing j with
  | nil => simp at h
  | cons x xs ih =>
    cases j with
    | zero => simp [setNth, nth]
    | succ n =>
      simp only [setNth, nth]
      exact ih (Nat.lt_of_succ_lt_succ h)

theorem nth_setNth_ne {α : Type} (l : List α) (i j : Nat) (b : α)
    (h : i ≠ j) : nth (setNth l j b) i = nth l i := by
  induction l generalizing i j with
  | nil => simp [setNth]
  | cons x xs ih =>
    cases j with
    | zero =>
      cases i with
      | zero => exact absurd rfl h
      | succ m => simp [setNth, nth]
    | succ n =>
      cases i with
      | zero => simp [setNth, nth]
      | succ m =>
        simp only [setNth, nth]
        exact ih m n (fun hc => h (by simp [hc]))

theorem setNth_length {α : Type} (l : List α) (j : Nat) (b : α) :
    (setNth l j b).length = l.length := by
  induction l generalizing j with
  | nil => rfl
  | cons x xs ih =>
    cases j with
    | zero => rfl
    | succ n => simp [setNth, ih]

theorem nth_append_left {α : Type} {l : List α} (l2 : List α) {j : Nat}
    (h : j < l.length) : nth (l ++ l2) j = nth l j := by
  induction l generalizing j with
  | nil => simp at h
  | cons x xs ih =>
    cases j with
    | zero => rfl
    | succ n => exact ih (Nat.lt_of_succ_lt_succ h)

theorem alistErase_subset {k : Str} {l : List (Str × Nat)} {p : Str × Nat}
    (h : p ∈ alistErase k l) : p ∈ l := by
  induction l with
  | nil => simp [alistErase] at h
  | cons q rest ih =>
    simp only [alistErase] at h
    by_cases hk : q.1 = k
    · simp [hk] at h
      exact List.mem_cons_of_mem q h
    · rw [if_neg hk] at h
      cases List.mem_cons.mp h with
      | inl he => exact he ▸ List.mem_cons_self q rest
      | inr ht => exact List.mem_cons_of_mem q (ih ht)

theorem alistLookup_mem {k : Str} {l : List (Str × Nat)} {v : Nat}
    (h : alistLookup k l = some v) : (k, v) ∈ l := by
  induction l with
  | nil => simp [alistLookup] at h
  | cons q rest ih =>
    simp only [alistLookup] at h
    by_cases hk : q.1 = k
    · rw [if_pos hk] at h
      cases h
      have hq : q = (k, q.2) := Prod.ext hk rfl
      exact hq ▸ List.mem_cons_self q rest
    · rw [if_neg hk] at h
      exact List.mem_cons_of_mem q (ih h)

theorem alistErase_of_lookup_none {k : Str} {l : List (Str × Nat)}
    (h : alistLookup k l = none) : alistErase k l = l := by
  induction l with
  | nil => rfl
  | cons q rest ih =>
    simp only [alistLookup] at h
    by_cases hk : q.1 = k
    · rw [if_pos hk] at h
      cases h
    · rw [if_neg hk] at h
      simp only [alistErase, if_neg hk, ih h]

theorem alistLookup_erase_ne (k k0 : Str) (l : List (Str × Nat))
    (h : k ≠ k0) : alistLookup k (alistErase k0 l) = alistLookup k l := by
  induction l with
  | nil => rfl
  | cons q rest ih =>
    by_cases hk : q.1 = k0
    · have hqk : q.1 ≠ k := fun hc => h (hc ▸ hk)
      rw [show alistErase k0 (q :: rest) = rest by simp [alistErase, hk]]
      rw [show alistLookup k (q :: rest) = alistLookup k rest by
        simp [alistLookup, hqk]]
    · rw [show alistErase k0 (q :: rest) = q :: alistErase k0 rest by
        simp [alistErase, hk]]
      simp only [alistLookup]
      rw [ih]

/-! Settle-once preservation: a settled promise is never changed again,
    by any handler of the event loop. -/

theorem futureAt_eq_some_nth {fs : List (Option Outcome)} {j : Nat}
    {v : Outcome} (h : futureAt fs j = some v) : nth fs j = some (some v) := by
  unfold futureAt at h
  cases hn : nth fs j with
  | none => rw [hn] at h; simp at h
  | some x => rw [hn] at h; simp at h; rw [h]

theorem futureAt_settleAt_preserved {fs : List (Option Outcome)} {j : Nat}
    {v : Outcome} (i : Nat) (o : Outcome) (h : futureAt fs j = some v) :
    futureAt (settleAt fs i o) j = some v := by
  by_cases hij : j = i
  · subst hij
    have hn := futureAt_eq_some_nth h
    have hlt := nth_lt_length hn
    unfold settleAt
    rw [h]
    unfold futureAt
    rw [nth_setNth_eq _ hlt]
    simp [settle]
  · unfold settleAt futureAt
    rw [nth_setNth_ne _ j i _ hij]
    exact h

theorem futureAt_settleAt_ne {fs : List (Option Outcome)} (i j : Nat)
    (o : Outcome) (h : j ≠ i) : futureAt (settleAt fs i o) j = futureAt fs j := by
  unfold settleAt futureAt
  rw [nth_setNth_ne _ j i _ h]

theorem futureAt_settleAt_eq_of_none {fs : List (Option Outcome)} {j : Nat}
    (o : Outcome) (h : futureAt fs j = none) (hlt : j < fs.length) :
    futureAt (settleAt fs j o) j = some o := by
  unfold settleAt
  rw [h]
  unfold futureAt
  rw [nth_setNth_eq _ hlt]
  simp [settle]

theorem futureAt_append_left {fs : List (Option Outcome)} (l2 : List (Option Outcome))
    {j : Nat} (h : j < fs.length) : futureAt (fs ++ l2) j = futureAt fs j := by
  unfold futureAt
  rw [nth_append_left l2 h]

theorem settleAt_length (fs : List (Option Outcome)) (i : Nat) (o : Outcome) :
    (settleAt fs i o).length = fs.length := by
  unfold settleAt
  exact setNth_length fs i _

theorem dispatchDoc_preserves_settled {s : ClientState} {j : Nat} {v : Outcome}
    (d : Doc) (h : futureAt s.futures j = some v) :
    futureAt (dispatchDoc s d).futures j = some v := by
  unfold dispatchDoc
  by_cases hty : d.ty = some "event".data
  · rw [if_pos hty]
    exact h
  · rw [if_neg hty]
    cases hl : alistLookup (keyOf d.requester) s.pool with
    | none => simp only [hl]; exact h
    | some i =>
      simp only [hl, runCallback]
      exact futureAt_settleAt_preserved i _ h

theorem dispatchSegment_preserves_settled (parse : Str → Option Doc)
    {s : ClientState} {j : Nat} {v : Outcome} (seg : Str)
    (h : futureAt s.futures j = some v) :
    futureAt (dispatchSegment parse s seg).futures j = some v := by
  unfold dispatchSegment
  by_cases he : seg = []
  · rw [if_pos he]; exact h
  · rw [if_neg he]
    cases parse seg with
    | none => exact h
    | some d => exact dispatchDoc_preserves_settled d h

theorem processSegments_preserves_settled (parse : Str → Option Doc)
    {s : ClientState} {j : Nat} {v : Outcome} (segs : List Str)
    (h : futureAt s.futures j = some v) :
    futureAt (processSegments parse s segs).futures j = some v := by
  induction segs generalizing s with
  | nil => exact h
  | cons seg rest ih =>
    exact ih (dispatchSegment_preserves_settled parse seg h)

theorem step_preserves_settled (parse : Str → Option Doc) {s : ClientState}
    {j : Nat} {v : Outcome} (e : Ev) (h : futureAt s.futures j = some v) :
    futureAt (step parse s e).futures j = some v := by
  cases e with
  | request rid connected =>
    simp only [step, requestStep]
    have hlt := nth_lt_length (futureAt_eq_some_nth h)
    by_cases hc : connected = true
    · rw [if_pos hc]
      exact (futureAt_append_left _ hlt).trans h
    · rw [if_neg hc]
      exact (futureAt_append_left _ hlt).trans h
  | data chunk =>
    simp only [step, dataStep]
    by_cases hs : (s.collected ++ chunk).contains sentinel = true
    · rw [if_pos hs]
      exact processSegments_preserves_settled parse _ h
    · rw [if_neg hs]
      exact h
  | timerFire i =>
    simp only [step, timerFireStep]
    by_cases ha : timerAt s.timers i = TimerState.armed
    · rw [if_pos ha]
      exact futureAt_settleAt_preserved i _ h
    · rw [if_neg ha]
      exact h

theorem run_preserves_settled (parse : Str → Option Doc) {s : ClientState}
    {j : Nat} {v : Outcome} (evs : List Ev) (h : futureAt s.futures j = some v) :
    futureAt (run parse s evs).futures j = some v := by
  induction evs generalizing s with
  | nil => exact h
  | cons e rest ih => exact ih (step_preserves_settled parse e h)

/-! A request whose pool binding was displaced can never be resolved by a
    response again: its promise stays pending until its own timer rejects
    it. -/

theorem alistErase_keys_ne {k : Str} {l : List (Str × Nat)} {p : Str × Nat}
    (h : (l.map Prod.fst).Nodup) (hp : p ∈ alistErase k l) : p.1 ≠ k := by
  induction l with
  | nil => simp [alistErase] at hp
  | cons q rest ih =>
    have hnd : (rest.map Prod.fst).Nodup := (List.nodup_cons.mp h).2
    simp only [alistErase] at hp
    by_cases hk : q.1 = k
    · rw [if_pos hk] at hp
      intro hc
      have hq1 : q.1 ∈ rest.map Prod.fst := by
        rw [hk, ← hc]
        exact List.mem_map_of_mem Prod.fst hp
      exact (List.nodup_cons.mp h).1 hq1
    · rw [if_neg hk] at hp
      cases List.mem_cons.mp hp with
      | inl he => rw [he]; exact hk
      | inr ht => exact ih hnd ht

theorem displaced_dispatchDoc {jold : Nat} {s : ClientState} (d : Doc)
    (h : displaced jold s) : displaced jold (dispatchDoc s d) := by
  obtain ⟨hpool, hlt, hfut⟩ := h
  unfold dispatchDoc
  by_cases hty : d.ty = some "event".data
  · rw [if_pos hty]
    exact ⟨hpool, hlt, hfut⟩
  · rw [if_neg hty]
    cases hl : alistLookup (keyOf d.requester) s.pool with
    | none =>
      simp only [hl]
      exact ⟨fun p hp => hpool p (alistErase_subset hp), hlt, hfut⟩
    | some i =>
      have hi : i ≠ jold := hpool (keyOf d.requester, i) (alistLookup_mem hl)
      simp only [hl, runCallback]
      refine ⟨fun p hp => hpool p (alistErase_subset hp), ?_, ?_⟩
      · rw [settleAt_length]; exact hlt
      · rw [futureAt_settleAt_ne i jold _ (fun hc => hi hc.symm)]
        exact hfut

theorem displaced_dispatchSegment (parse : Str → Option Doc) {jold : Nat}
    {s : ClientState} (seg : Str) (h : displaced jold s) :
    displaced jold (dispatchSegment parse s seg) := by
  unfold dispatchSegment
  by_cases he : seg = []
  · rw [if_pos he]; exact h
  · rw [if_neg he]
    cases parse seg with
    | none => exact h
    | some d => exact displaced_dispatchDoc d h

theorem displaced_processSegments (parse : Str → Option Doc) {jold : Nat}
    {s : ClientState} (segs : List Str) (h : displaced jold s) :
    displaced jold (processSegments parse s segs) := by
  induction segs generalizing s with
  | nil => exact h
  | cons seg rest ih => exact ih (displaced_dispatchSegment parse seg h)

theorem displaced_step (parse : Str → Option Doc) {jold : Nat}
    {s : ClientState} (e : Ev) (h : displaced jold s) :
    displaced jold (step parse s e) := by
  obtain ⟨hpool, hlt, hfut⟩ := h
  cases e with
  | request rid connected =>
    simp only [step, requestStep]
    by_cases hc : connected = true
    · rw [if_pos hc]
      refine ⟨?_, ?_, ?_⟩
      · intro p hp
        cases List.mem_cons.mp hp with
        | inl he => rw [he]; exact Nat.ne_of_gt hlt
        | inr ht => exact hpool p (alistErase_subset ht)
      · simp only [List.length_append, List.length_cons, List.length_nil]
        omega
      · rw [futureAt_append_left _ hlt]
        exact hfut
    · rw [if_neg hc]
      refine ⟨hpool, ?_, ?_⟩
      · simp only [List.length_append, List.length_cons, List.length_nil]
        omega
      · rw [futureAt_append_left _ hlt]
        exact hfut
  | data chunk =>
    simp only [step, dataStep]
    by_cases hs : (s.collected ++ chunk).contains sentinel = true
    · rw [if_pos hs]
      have h1 : displaced jold { s with collected := s.collected ++ chunk } :=
        ⟨hpool, hlt, hfut⟩
      have h2 := displaced_processSegments parse
        (splitOnSentinel (s.collected ++ chunk)) h1
      exact ⟨h2.1, h2.2.1, h2.2.2⟩
    · rw [if_neg hs]
      exact ⟨hpool, hlt, hfut⟩
  | timerFire i =>
    simp only [step, timerFireStep]
    by_cases ha : timerAt s.timers i = TimerState.armed
    · rw [if_pos ha]
      by_cases hij : i = jold
      · subst hij
        refine ⟨hpool, ?_, ?_⟩
        · rw [settleAt_length]; exact hlt
        · cases hfut with
          | inl hn =>
            exact Or.inr (futureAt_settleAt_eq_of_none _ hn hlt)
          | inr hv =>
            exact Or.inr (futureAt_settleAt_preserved i _ hv)
      · refine ⟨hpool, ?_, ?_⟩
        · rw [settleAt_length]; exact hlt
        · rw [futureAt_settleAt_ne i jold _ (fun hc => hij hc.symm)]
          exact hfut
    · rw [if_neg ha]
      exact ⟨hpool, hlt, hfut⟩

theorem displaced_run (parse : Str → Option Doc) {jold : Nat}
    {s : ClientState} (evs : List Ev) (h : displaced jold s) :
    displaced jold (run parse s evs) := by
  induction evs generalizing s with
  | nil => exact h
  | cons e rest ih => exact ih (displaced_step parse e h)

/-! Lemmas about the WebSocket queue-and-retry send policy. -/

theorem wsInv_init (c : Bool) : wsInv (wsRequestInit c) := by
  cases c <;> simp [wsInv, wsRequestInit]

theorem wsInv_step (s : WsReq) (e : WsEv) (h : wsInv s) : wsInv (wsStep s e) := by
  obtain ⟨h1, h2⟩ := h
  cases e with
  | tick connected =>
    simp only [wsStep]
    by_cases hc : (s.intervalActive && connected) = true
    · rw [if_pos hc]
      have ha : s.intervalActive = true := by
        simp only [Bool.and_eq_true] at hc
        exact hc.1
      constructor
      · intro hf; simp at hf
      · simp [h1 ha]
    · rw [if_neg hc]
      exact ⟨h1, h2⟩
  | timerFire =>
    simp only [wsStep]
    by_cases ht : s.timerArmed = true
    · rw [if_pos ht]
      constructor
      · intro hf; simp at hf
      · exact h2
    · rw [if_neg ht]
      exact ⟨h1, h2⟩
  | response payload =>
    simp only [wsStep]
    exact ⟨h1, h2⟩

theorem wsInv_run (s : WsReq) (evs : List WsEv) (h : wsInv s) :
    wsInv (wsRun s evs) := by
  induction evs generalizing s with
  | nil => exact h
  | cons e rest ih => exact ih _ (wsInv_step s e h)

/-- Once the resend interval is inactive, it stays inactive and the send
    count never changes again. -/
theorem wsRun_frozen (s : WsReq) (evs : List WsEv)
    (h : s.intervalActive = false) :
    (wsRun s evs).sent = s.sent ∧ (wsRun s evs).intervalActive = false := by
  induction evs generalizing s with
  | nil => exact ⟨rfl, h⟩
  | cons e rest ih =>
    have hstep : (wsStep s e).sent = s.sent ∧ (wsStep s e).intervalActive = false := by
      cases e with
      | tick connected =>
        simp [wsStep, h]
      | timerFire =>
        by_cases ht : s.timerArmed = true
        · simp [wsStep, ht]
        · simp [wsStep, ht, h]
      | response payload =>
        simp [wsStep, h]
    have := ih (wsStep s e) hstep.2
    exact ⟨this.1.trans hstep.1, this.2⟩

/-- While disconnected, each interval tick finds the connection down and
    changes nothing: the request keeps waiting with the interval armed. -/
theorem wsRun_quiet (pre : List WsEv) (h : ∀ e ∈ pre, e = WsEv.tick false) :
    wsRun (wsRequestInit false) pre = wsRequestInit false := by
  induction pre with
  | nil => rfl
  | cons e rest ih =>
    have he : e = WsEv.tick false := h e (List.mem_cons_self e rest)
    have hstep : wsStep (wsRequestInit false) e = wsRequestInit false := by
      rw [he]
      simp [wsStep, wsRequestInit]
    show wsRun (wsStep (wsRequestInit false) e) rest = wsRequestInit false
    rw [hstep]
    exact ih (fun e2 h2 => h e2 (List.mem_cons_of_mem e h2))

/-! Lemmas for stale responses and timeout behavior. -/

theorem timerAt_setNth_cleared (ts : List TimerState) (j : Nat) :
    timerAt (setNth ts j TimerState.cleared) j = TimerState.cleared := by
  induction ts generalizing j with
  | nil => rfl
  | cons t rest ih =>
    cases j with
    | zero => rfl
    | succ n => exact ih n

theorem dispatchSegment_id_of_stale (parse : Str → Option Doc)
    (s : ClientState) (seg : Str)
    (h : ∀ d, parse seg = some d →
      ¬ d.ty = some "event".data ∧ alistLookup (keyOf d.requester) s.pool = none) :
    dispatchSegment parse s seg = s := by
  unfold dispatchSegment
  by_cases he : seg = []
  · rw [if_pos he]
  · rw [if_neg he]
    cases hp : parse seg with
    | none => rfl
    | some d =>
      obtain ⟨hty, hlk⟩ := h d hp
      show dispatchDoc s d = s
      unfold dispatchDoc
      rw [if_neg hty]
      simp only [hlk]
      rw [alistErase_of_lookup_none hlk]

theorem processSegments_id_of_stale (parse : Str → Option Doc)
    (s : ClientState) (segs : List Str)
    (h : ∀ seg ∈ segs, ∀ d, parse seg = some d →
      ¬ d.ty = some "event".data ∧ alistLookup (keyOf d.requester) s.pool = none) :
    processSegments parse s segs = s := by
  induction segs with
  | nil => rfl
  | cons seg rest ih =>
    have h1 : dispatchSegment parse s seg = s :=
      dispatchSegment_id_of_stale parse s seg (h seg (List.mem_cons_self seg rest))
    show processSegments parse (dispatchSegment parse s seg) rest = s
    rw [h1]
    exact ih (fun s2 h2 => h s2 (List.mem_cons_of_mem seg h2))

/-! The claims. -/

/-- C10: destroy() on a Unix-socket client is not a total, safe
    operation. In the buildRequestProtocol variant (index.js lines
    1058-1060) it invokes opts.destroy, which the protocol options object
    of newUnixClient (lines 1074-1078) never defines, so the call throws
    a TypeError; in the older variant (src/unnamed/part_001 lines
    757-759) it calls client.destroy() on a handle that is null whenever
    the connection is down, which also throws a TypeError; with a live
    handle the older variant does tear the socket down. -/
theorem destroy_not_total :
    unix_protocol_options.destroy = none ∧
    protocolDestroy unix_protocol_options = Except.error JsError.typeError ∧
    oldProtocolDestroy none = Except.error JsError.typeError ∧
    oldProtocolDestroy (some ()) = Except.ok () :=
  ⟨rfl, rfl, rfl, rfl⟩

/-- C4 (code bug): the source does not implement the claimed destroy
    behavior. Calling destroy throws a TypeError (opts.destroy is
    undefined), the reconnection supervisor's interval is never cancelled
    anywhere in the source — its tick still initiates a reconnect
    whenever the handle is null and reconnect is enabled — and a request
    pending at destroy time is left pending, completing only when its own
    timeout timer later rejects it. -/
theorem destroy_gap_eval :
    protocolDestroy unix_protocol_options = Except.error JsError.typeError ∧
    supervisorTick true true = true ∧
    futureAt pendingState.futures 0 = none ∧
    futureAt (timerFireStep pendingState 0).futures 0 =
      some (Outcome.rejected requestTimedOut) :=
  ⟨rfl, rfl, rfl, by decide⟩

/-- C3 (counterexample): with one pending request (id "abc", request 0,
    timer armed), the timeout firing rejects the promise with the timeout
    failure but does not remove the pool entry: the claim's "the entry is
    removed from the correlation pool at that moment" is false on the
    code, whose timer callback only rejects. -/
theorem timeout_leaves_pool_entry :
    futureAt (timerFireStep pendingState 0).futures 0 =
      some (Outcome.rejected requestTimedOut) ∧
    ¬ alistLookup "abc".data (timerFireStep pendingState 0).pool = none := by
  decide

/-- C3 (amended): when a pending request's timeout timer elapses while
    its entry is still present, the promise is rejected with the timeout
    failure, surfaced to the caller, but the entry is NOT removed from
    the correlation pool at that moment: the pool is left entirely
    unchanged (the entry is deleted only when a later response bearing
    its id arrives). -/
theorem timeout_rejects_but_entry_remains (s : ClientState) (j : Nat)
    (rid : Str) (h1 : timerAt s.timers j = TimerState.armed)
    (h2 : futureAt s.futures j = none) (h3 : j < s.futures.length)
    (h4 : alistLookup rid s.pool = some j) :
    futureAt (timerFireStep s j).futures j =
      some (Outcome.rejected requestTimedOut) ∧
    (timerFireStep s j).pool = s.pool ∧
    alistLookup rid (timerFireStep s j).pool = some j := by
  unfold timerFireStep
  rw [if_pos h1]
  exact ⟨futureAt_settleAt_eq_of_none _ h2 h3, rfl, h4⟩

/-- Witness for the amended C3 theorem at the concrete one-request
    client. -/
theorem timeout_rejects_but_entry_remains_witness :
    futureAt (timerFireStep pendingState 0).futures 0 =
      some (Outcome.rejected requestTimedOut) ∧
    (timerFireStep pendingState 0).pool = pendingState.pool ∧
    alistLookup "abc".data (timerFireStep pendingState 0).pool = some 0 :=
  timeout_rejects_but_entry_remains pendingState 0 "abc".data
    (by decide) (by decide) (by decide) (by decide)

/-- C1 (code bug): the two chunks concatenate to exactly the two
    well-formed sentinel-terminated frames A and B (their bodies are
    sentinel-free and parse), and when the chunk boundaries align with
    the frames the handler decodes both documents; but with the boundary
    in the middle of frame B the handler decodes only document A: the
    buffer is reset to the empty string after any feed containing a
    sentinel, so the partial tail of frame B is discarded instead of
    retained. At the dispatch level, with requests "a" and "b" pending,
    request "a" resolves but request "b" never receives its response and
    is rejected by its own timeout. -/
theorem split_frame_dropped_by_buffer_reset :
    chunk1 ++ chunk2 = frameA ++ [sentinel] ++ (frameB ++ [sentinel]) ∧
    tableParse exampleTab frameA = some docA ∧
    tableParse exampleTab frameB = some docB ∧
    frameA.contains sentinel = false ∧
    frameB.contains sentinel = false ∧
    (feedAll (tableParse exampleTab)
      [frameA ++ [sentinel], frameB ++ [sentinel]]).1 = [docA, docB] ∧
    (feedAll (tableParse exampleTab) [chunk1, chunk2]).1 = [docA] ∧
    futureAt (run (tableParse exampleTab) twoPending
      [Ev.data chunk1, Ev.data chunk2, Ev.timerFire 1]).futures 0 =
      some (Outcome.resolved 1) ∧
    futureAt (run (tableParse exampleTab) twoPending
      [Ev.data chunk1, Ev.data chunk2, Ev.timerFire 1]).futures 1 =
      some (Outcome.rejected requestTimedOut) := by
  decide

theorem wsRun_cons (s : WsReq) (e : WsEv) (l : List WsEv) :
    wsRun s (e :: l) = wsRun (wsStep s e) l := rfl

theorem wsRun_append (s : WsReq) (l1 l2 : List WsEv) :
    wsRun s (l1 ++ l2) = wsRun (wsRun s l1) l2 :=
  List.foldl_append wsStep s l1 l2

/-- C2: exactly-once completion per registered request. Once a request's
    promise is settled, no later event of the event loop (a new request,
    a socket data callback, a timer firing) ever changes its outcome —
    the later of response delivery and timeout expiry is a no-op on the
    promise. While the promise is pending, delivery of a response bearing
    its pool id resolves it with the response payload and clears its
    timer (so the timeout can never fire afterwards), and a timeout
    firing on an armed timer rejects it with the timeout failure. The
    caller therefore observes exactly one outcome. -/
theorem request_completes_exactly_once (parse : Str → Option Doc)
    (s : ClientState) (j : Nat) (d : Doc) (v : Outcome) :
    (futureAt s.futures j = some v →
      ∀ evs, futureAt (run parse s evs).futures j = some v) ∧
    (futureAt s.futures j = none → j < s.futures.length →
      ¬ d.ty = some "event".data →
      alistLookup (keyOf d.requester) s.pool = some j →
      futureAt (dispatchDoc s d).futures j = some (Outcome.resolved d.data) ∧
      timerAt (dispatchDoc s d).timers j = TimerState.cleared) ∧
    (futureAt s.futures j = none → j < s.futures.length →
      timerAt s.timers j = TimerState.armed →
      futureAt (timerFireStep s j).futures j =
        some (Outcome.rejected requestTimedOut)) := by
  refine ⟨?_, ?_, ?_⟩
  · intro h evs
    exact run_preserves_settled parse evs h
  · intro h1 h2 hty hl
    unfold dispatchDoc
    rw [if_neg hty]
    simp only [hl, runCallback]
    exact ⟨futureAt_settleAt_eq_of_none _ h1 h2, timerAt_setNth_cleared _ _⟩
  · intro h1 h2 ha
    unfold timerFireStep
    rw [if_pos ha]
    exact futureAt_settleAt_eq_of_none _ h1 h2

/-- Witness for C2 at concrete inputs: a settled promise survives a
    later timeout and a later matching response unchanged; a pending
    request resolves on response delivery with its timer cleared; a
    pending request rejects on timeout. -/
theorem request_completes_exactly_once_witness :
    futureAt (run (tableParse exampleTab) resolvedState
      [Ev.timerFire 0, Ev.data (respAbcFrame ++ [sentinel])]).futures 0 =
      some (Outcome.resolved 7) ∧
    (futureAt (dispatchDoc pendingState respAbc).futures 0 =
      some (Outcome.resolved 7) ∧
      timerAt (dispatchDoc pendingState respAbc).timers 0 = TimerState.cleared) ∧
    futureAt (timerFireStep pendingState 0).futures 0 =
      some (Outcome.rejected requestTimedOut) := by
  refine ⟨?_, ?_, ?_⟩
  · exact (request_completes_exactly_once (tableParse exampleTab) resolvedState
      0 respAbc (Outcome.resolved 7)).1 (by decide) _
  · exact (request_completes_exactly_once (tableParse exampleTab) pendingState
      0 respAbc (Outcome.resolved 7)).2.1 (by decide) (by decide) (by decide)
      (by decide)
  · exact (request_completes_exactly_once (tableParse exampleTab) pendingState
      0 respAbc (Outcome.resolved 7)).2.2 (by decide) (by decide) (by decide)

/-- C5: a malformed (undecodable) segment in a feed is dropped silently
    by the per-segment try/catch: processing a segment list containing it
    gives exactly the state obtained by processing the same list without
    it, so every well-formed segment before and after it is still decoded
    and dispatched, and nothing is aborted (the handler is a total state
    transformer; no failure escapes to the caller or the connection). -/
theorem malformed_segment_dropped (parse : Str → Option Doc)
    (s : ClientState) (m : Str) (pre post : List Str)
    (hm : parse m = none) :
    processSegments parse s (pre ++ m :: post) =
      processSegments parse s (pre ++ post) := by
  induction pre generalizing s with
  | nil =>
    show processSegments parse (dispatchSegment parse s m) post =
      processSegments parse s post
    have hid : dispatchSegment parse s m = s := by
      unfold dispatchSegment
      by_cases he : m = []
      · rw [if_pos he]
      · rw [if_neg he, hm]
    rw [hid]
  | cons a rest ih =>
    show processSegments parse (dispatchSegment parse s a) (rest ++ m :: post) =
      processSegments parse (dispatchSegment parse s a) (rest ++ post)
    exact ih _

/-- Witness for C5: the partial-document segment between the two
    well-formed frames changes nothing, and both surrounding frames are
    still dispatched — the two pending requests resolve with their
    payloads. -/
theorem malformed_segment_dropped_witness :
    processSegments (tableParse exampleTab) twoPending [frameA, badSeg, frameB] =
      processSegments (tableParse exampleTab) twoPending [frameA, frameB] ∧
    futureAt (processSegments (tableParse exampleTab) twoPending
      [frameA, badSeg, frameB]).futures 0 = some (Outcome.resolved 1) ∧
    futureAt (processSegments (tableParse exampleTab) twoPending
      [frameA, badSeg, frameB]).futures 1 = some (Outcome.resolved 2) :=
  ⟨malformed_segment_dropped (tableParse exampleTab) twoPending badSeg
    [frameA] [frameB] (by decide), by decide, by decide⟩

/-- C6: a response whose requester id has no pending pool entry is
    ignored without error: the data handler is a total state transformer
    (the try/catch swallows nothing here because nothing throws), and
    when every document decoded from the feed is a non-event whose id is
    unknown, the pool, every promise, every timer and the event log are
    left exactly as they were — no other pending request is affected in
    any way. -/
theorem stale_response_no_effect (parse : Str → Option Doc)
    (s : ClientState) (chunk : Str)
    (h : ∀ seg ∈ splitOnSentinel (s.collected ++ chunk), ∀ d, parse seg = some d →
      ¬ d.ty = some "event".data ∧ alistLookup (keyOf d.requester) s.pool = none) :
    (dataStep parse s chunk).pool = s.pool ∧
    (dataStep parse s chunk).futures = s.futures ∧
    (dataStep parse s chunk).timers = s.timers ∧
    (dataStep parse s chunk).eventLog = s.eventLog := by
  simp only [dataStep]
  by_cases hs : (s.collected ++ chunk).contains sentinel = true
  · rw [if_pos hs]
    have hid : processSegments parse { s with collected := s.collected ++ chunk }
        (splitOnSentinel (s.collected ++ chunk)) =
        { s with collected := s.collected ++ chunk } :=
      processSegments_id_of_stale parse _ _ h
    rw [hid]
    exact ⟨rfl, rfl, rfl, rfl⟩
  · rw [if_neg hs]
    exact ⟨rfl, rfl, rfl, rfl⟩

/-- Witness for C6: a frame carrying the unknown requester id "zzz" fed
    to the client whose only pending request is "abc" leaves the pool,
    the promises, the timers and the event log unchanged. -/
theorem stale_response_no_effect_witness :
    (dataStep (tableParse [(staleFrame, staleDoc)]) pendingState
      (staleFrame ++ [sentinel])).pool = pendingState.pool ∧
    (dataStep (tableParse [(staleFrame, staleDoc)]) pendingState
      (staleFrame ++ [sentinel])).futures = pendingState.futures ∧
    (dataStep (tableParse [(staleFrame, staleDoc)]) pendingState
      (staleFrame ++ [sentinel])).timers = pendingState.timers ∧
    (dataStep (tableParse [(staleFrame, staleDoc)]) pendingState
      (staleFrame ++ [sentinel])).eventLog = pendingState.eventLog := by
  apply stale_response_no_effect
  intro seg hseg d hd
  have hsplit : splitOnSentinel (pendingState.collected ++ (staleFrame ++ [sentinel]))
      = [staleFrame, []] := by decide
  rw [hsplit] at hseg
  simp only [List.mem_cons, List.not_mem_nil, or_false] at hseg
  cases hseg with
  | inl h1 =>
    subst h1
    rw [show tableParse [(staleFrame, staleDoc)] staleFrame = some staleDoc
      from by decide] at hd
    injection hd with h2
    subst h2
    exact ⟨by decide, by decide⟩
  | inr h1 =>
    subst h1
    rw [show tableParse [(staleFrame, staleDoc)] [] = none from by decide] at hd
    exact Option.noConfusion hd

/-- C7: routing on the combined Unix-style channel. A decoded document
    whose ty field equals "event" is delivered to every registered
    listener in registration order and nothing else changes — in
    particular the pool, the promises and the timers are untouched, so it
    is never treated as a response, whatever pending ids exist. Any other
    decoded document leaves the listeners and the event log untouched and
    acts only through the pool entry of its requester id: if that id is
    pending, that promise is resolved with the payload and its timer
    cleared; if not, the promises and timers are unchanged; the binding
    of its requester id is deleted and every other id's binding is
    unaffected. -/
theorem event_vs_response_routing (s : ClientState) (d : Doc) :
    (d.ty = some "event".data →
      dispatchDoc s d =
        { s with eventLog := s.eventLog ++ s.listeners.map (fun l => (l, d.data)) }) ∧
    (¬ d.ty = some "event".data →
      (dispatchDoc s d).eventLog = s.eventLog ∧
      (dispatchDoc s d).listeners = s.listeners ∧
      (∀ j, alistLookup (keyOf d.requester) s.pool = some j →
        (dispatchDoc s d).futures = settleAt s.futures j (Outcome.resolved d.data) ∧
        (dispatchDoc s d).timers = setNth s.timers j TimerState.cleared) ∧
      (alistLookup (keyOf d.requester) s.pool = none →
        (dispatchDoc s d).futures = s.futures ∧
        (dispatchDoc s d).timers = s.timers) ∧
      (dispatchDoc s d).pool = alistErase (keyOf d.requester) s.pool ∧
      (∀ k, ¬ k = keyOf d.requester →
        alistLookup k (dispatchDoc s d).pool = alistLookup k s.pool)) := by
  constructor
  · intro hty
    unfold dispatchDoc
    rw [if_pos hty]
  · intro hty
    unfold dispatchDoc
    rw [if_neg hty]
    dsimp only
    cases hl : alistLookup (keyOf d.requester) s.pool with
    | none =>
      exact ⟨rfl, rfl, fun j hj => Option.noConfusion hj,
        fun _ => ⟨rfl, rfl⟩, rfl,
        fun k hk => alistLookup_erase_ne k (keyOf d.requester) s.pool hk⟩
    | some j0 =>
      refine ⟨rfl, rfl, ?_, fun hn => Option.noConfusion hn, rfl,
        fun k hk => alistLookup_erase_ne k (keyOf d.requester) s.pool hk⟩
      intro j hj
      injection hj with h2
      subst h2
      exact ⟨rfl, rfl⟩

/-- Witness for C7: the specification's event-tagged document, arriving
    on the combined channel of a client with two registered listeners and
    a pending request "abc", is fanned out to both listeners and touches
    nothing else; a response document for "abc" resolves that request and
    leaves the event log empty. -/
theorem event_vs_response_routing_witness :
    dispatchDoc pendingState eventDoc =
      { pendingState with eventLog := pendingState.eventLog ++
          pendingState.listeners.map (fun l => (l, eventDoc.data)) } ∧
    (dispatchDoc pendingState respAbc).eventLog = pendingState.eventLog :=
  ⟨(event_vs_response_routing pendingState eventDoc).1 (by decide),
   ((event_vs_response_routing pendingState respAbc).2 (by decide)).1⟩

/-- C8: the queue-and-retry send policy of the WebSocket transport. A
    request is never sent more than once over any execution. A request
    issued while disconnected waits through any number of disconnected
    retry ticks, and on the first tick that finds the connection up it is
    sent; from then on it stays sent exactly once, whatever happens
    later. When the request's own timeout fires while pending, the retry
    interval is cleared — the send count never changes afterwards, the
    interval stays inactive, and the promise receives the timeout
    rejection. -/
theorem ws_request_sent_exactly_once :
    (∀ c evs, (wsRun (wsRequestInit c) evs).sent ≤ 1) ∧
    (∀ pre post, (∀ e ∈ pre, e = WsEv.tick false) →
      (wsRun (wsRequestInit false) (pre ++ WsEv.tick true :: post)).sent = 1) ∧
    (∀ c pre post, (wsRun (wsRequestInit c) pre).timerArmed = true →
      (wsRun (wsRequestInit c) (pre ++ WsEv.timerFire :: post)).sent =
        (wsRun (wsRequestInit c) pre).sent ∧
      (wsRun (wsRequestInit c) (pre ++ WsEv.timerFire :: post)).intervalActive
        = false ∧
      (wsRun (wsRequestInit c) (pre ++ [WsEv.timerFire])).outcome =
        settle (wsRun (wsRequestInit c) pre).outcome
          (Outcome.rejected requestTimedOut)) := by
  refine ⟨?_, ?_, ?_⟩
  · intro c evs
    exact (wsInv_run _ evs (wsInv_init c)).2
  · intro pre post hq
    rw [wsRun_append, wsRun_quiet pre hq, wsRun_cons]
    have htick : wsStep (wsRequestInit false) (WsEv.tick true) =
        { intervalActive := false, timerArmed := true, sent := 1,
          outcome := none } := by decide
    rw [htick]
    exact (wsRun_frozen _ post rfl).1
  · intro c pre post ht
    have hfire : wsStep (wsRun (wsRequestInit c) pre) WsEv.timerFire =
        { intervalActive := false, timerArmed := false,
          sent := (wsRun (wsRequestInit c) pre).sent,
          outcome := settle (wsRun (wsRequestInit c) pre).outcome
            (Outcome.rejected requestTimedOut) } := by
      simp [wsStep, ht]
    refine ⟨?_, ?_, ?_⟩
    · rw [wsRun_append, wsRun_cons, hfire]
      exact (wsRun_frozen _ post rfl).1
    · rw [wsRun_append, wsRun_cons, hfire]
      exact (wsRun_frozen _ post rfl).2
    · rw [wsRun_append, wsRun_cons, hfire]
      rfl

/-- Witness for C8: a request issued while disconnected, after two
    disconnected retry ticks and a reconnect within the retry window, is
    sent exactly once, also across a further tick and its eventual
    timeout. -/
theorem ws_request_sent_exactly_once_witness :
    (wsRun (wsRequestInit false)
      ([WsEv.tick false, WsEv.tick false] ++ WsEv.tick true ::
        [WsEv.tick true, WsEv.timerFire])).sent = 1 :=
  ws_request_sent_exactly_once.2.1 [WsEv.tick false, WsEv.tick false]
    [WsEv.tick true, WsEv.timerFire] (by decide)

/-- C9: a generated request id colliding with a pending one silently
    overwrites the pool entry. After the overwriting registration, the
    id's binding points at the new request, no pool entry points at the
    displaced request any more, and along every subsequent execution the
    displaced request's promise is either still pending or rejected with
    the timeout failure — it can never be resolved by any response; only
    its own timeout completes it. -/
theorem duplicate_id_overwrites_pool_entry (s : ClientState) (rid : Str)
    (jold : Nat) (h1 : alistLookup rid s.pool = some jold)
    (h2 : ∀ p ∈ s.pool, p.2 = jold → p.1 = rid)
    (h3 : (s.pool.map Prod.fst).Nodup)
    (h4 : jold < s.futures.length)
    (h5 : futureAt s.futures jold = none) :
    alistLookup rid (requestStep s rid true).pool = some s.futures.length ∧
    (∀ p ∈ (requestStep s rid true).pool, p.2 ≠ jold) ∧
    (∀ parse evs,
      futureAt (run parse (requestStep s rid true) evs).futures jold = none ∨
      futureAt (run parse (requestStep s rid true) evs).futures jold =
        some (Outcome.rejected requestTimedOut)) := by
  have hpool : ∀ p ∈ (requestStep s rid true).pool, p.2 ≠ jold := by
    intro p hp
    have hp' : p ∈ alistInsert rid s.futures.length s.pool := hp
    unfold alistInsert at hp'
    cases List.mem_cons.mp hp' with
    | inl he =>
      rw [he]
      exact Nat.ne_of_gt h4
    | inr ht =>
      intro hc
      exact alistErase_keys_ne h3 ht (h2 p (alistErase_subset ht) hc)
  have hdisp : displaced jold (requestStep s rid true) := by
    refine ⟨hpool, ?_, ?_⟩
    · show jold < (s.futures ++ [none]).length
      simp only [List.length_append, List.length_cons, List.length_nil]
      omega
    · left
      show futureAt (s.futures ++ [none]) jold = none
      rw [futureAt_append_left _ h4]
      exact h5
  refine ⟨?_, hpool, ?_⟩
  · show alistLookup rid (alistInsert rid s.futures.length s.pool) =
      some s.futures.length
    unfold alistInsert alistLookup
    rw [if_pos rfl]
  · intro parse evs
    exact (displaced_run parse evs hdisp).2.2

/-- Witness for C9: a second request reusing the pending id "abc"
    displaces request 0; after the overwrite, a response for "abc"
    followed by request 0's timeout leaves request 0 pending or
    timeout-rejected (it is never resolved). -/
theorem duplicate_id_overwrites_pool_entry_witness :
    futureAt (run (tableParse [(respAbcFrame, respAbc)])
      (requestStep pendingState "abc".data true)
      [Ev.data (respAbcFrame ++ [sentinel]), Ev.timerFire 0]).futures 0 = none ∨
    futureAt (run (tableParse [(respAbcFrame, respAbc)])
      (requestStep pendingState "abc".data true)
      [Ev.data (respAbcFrame ++ [sentinel]), Ev.timerFire 0]).futures 0 =
      some (Outcome.rejected requestTimedOut) :=
  (duplicate_id_overwrites_pool_entry pendingState "abc".data 0 (by decide)
    (by decide) (by decide) (by decide) (by decide)).2.2
    (tableParse [(respAbcFrame, respAbc)])
    [Ev.data (respAbcFrame ++ [sentinel]), Ev.timerFire 0]
